import Mathlib

/-!
# Cloud-Insight-AI dashboard: verification of the status-derivation core

Shallow embedding of the report-interpretation logic of the Cloud-Insight-AI
dashboard (`script.js`, three UI revisions, and the unnamed revision
`part_000`).  JavaScript optional fields are modelled as `Option`, the
`?.`-plus-`|| 0` access patterns as explicit defaulting helpers, numbers
feeding `toFixed` as `ℚ`, and integer-valued counts as `ℤ`/`ℕ` as the
documented shape dictates.  Where JavaScript semantics are
position-sensitive the embedding follows them exactly: `substring` counts
UTF-16 code units (`utf16Units`), and `Object.entries` enumerates
array-index property keys first in numeric order (`entriesOrder`).
-/

namespace CloudInsight

/-- `log_levels` object: severity → count, every key optional
(absence is treated as zero by all consumers). -/
structure LogLevels where
  critical : Option Nat
  error : Option Nat
  warning : Option Nat
  info : Option Nat
deriving DecidableEq, Repr

/-- One entry of `error_details` / `warning_details` / `info_details`
(the fields the inspected logic reads). -/
structure ErrorEntry where
  id : String
  type : String
  message : String
  timestamp : Option String
  recommendation : Option String
deriving DecidableEq, Repr

/-- `cost_trend` object (the `history` sequence only feeds the chart
plumbing, which is out of the inspected core). -/
structure CostTrend where
  total_cost : Option ℚ
  change_percentage : Option ℚ
deriving DecidableEq, Repr

/-- The parsed report document (ReportSnapshot), fields as read by the
inspected revisions.  `sentiment` and `error_count` are the fields the
third revision's `updateStatus` consumes. -/
structure Snapshot where
  timestamp : Option String
  cost_health : Option String
  log_levels : Option LogLevels
  error_details : Option (List ErrorEntry)
  warning_details : Option (List ErrorEntry)
  info_details : Option (List ErrorEntry)
  cost_trend : Option CostTrend
  log_health_status : Option String
  health_score : Option ℤ
  health_reason : Option String
  recommendations : Option (List String)
  sentiment : Option String
  error_count : Option ℤ
deriving DecidableEq, Repr

/-- JavaScript `x || d` on an optional string: `undefined` and the empty
string are falsy. -/
def jsOr (s : Option String) (d : String) : String :=
  match s with
  | none => d
  | some v => if v = "" then d else v

/-- JavaScript `x > c` where `x` may be `undefined`
(`undefined > c` is `false`). -/
def jsNumGt (x : Option ℤ) (c : ℤ) : Bool :=
  match x with
  | none => false
  | some v => decide (c < v)

/-- `levels?.critical || 0` (updateLogLevels / updateStatusIndicators). -/
def criticalCount (levels : Option LogLevels) : Nat :=
  (levels.bind LogLevels.critical).getD 0

/-- `levels?.error || 0`. -/
def errorCountOf (levels : Option LogLevels) : Nat :=
  (levels.bind LogLevels.error).getD 0

/-- `levels?.warning || 0`. -/
def warningCountOf (levels : Option LogLevels) : Nat :=
  (levels.bind LogLevels.warning).getD 0

/-- `levels?.info || 0`. -/
def infoCountOf (levels : Option LogLevels) : Nat :=
  (levels.bind LogLevels.info).getD 0

/-- The two status dots produced by `updateStatusIndicators`. -/
structure StatusDots where
  costStatus : String
  logStatus : String
deriving DecidableEq, Repr

/-- `updateStatusIndicators(costHealth, logLevels)` (first revision and
`part_000`; the second revision receives the two counts pre-extracted but
computes the same dots).  Mirrors the sequential reassignments:
start green, `warning` turns the dot yellow, `critical` turns it red. -/
def updateStatusIndicators (costHealth : Option String)
    (logLevels : Option LogLevels) : StatusDots :=
  let criticals := criticalCount logLevels
  let warnings := warningCountOf logLevels
  let costStatus0 := "green"
  let costStatus1 := if costHealth = some "warning" then "yellow" else costStatus0
  let costStatus2 := if costHealth = some "critical" then "red" else costStatus1
  let logStatus0 := "green"
  let logStatus1 := if 0 < warnings then "yellow" else logStatus0
  let logStatus2 := if 0 < criticals then "red" else logStatus1
  ⟨costStatus2, logStatus2⟩

/-- `updateStatus(sentiment, errorCount)` of the third revision: the only
overall status label in the code.  `statusText` starts `Healthy`, becomes
`Degraded` on a `Negative` sentiment or a positive count, and `Critical`
when the count exceeds the hard-coded threshold 5. -/
def updateStatus (sentiment : Option String) (errorCount : Option ℤ) : String :=
  let statusText0 := "Healthy"
  let statusText1 :=
    if sentiment = some "Negative" ∨ jsNumGt errorCount 0 = true then "Degraded"
    else statusText0
  if jsNumGt errorCount 5 = true then "Critical" else statusText1

/-- `Object.values(data.log_levels || {})`: the list of counts actually
present (enumeration order is irrelevant to the sum it feeds). -/
def LogLevels.values (v : LogLevels) : List Nat :=
  [v.critical, v.error, v.warning, v.info].reduceOption

/-- `Object.values(data.log_levels || {}).reduce((a, b) => a + b, 0)`
from `updateExecutiveSummary`. -/
def totalLogs (levels : Option LogLevels) : Nat :=
  (LogLevels.values (levels.getD ⟨none, none, none, none⟩)).sum

/-- `(data.log_levels?.critical || 0) + (data.log_levels?.error || 0)`
(the "errors" metric of the executive summary). -/
def errorsMetric (levels : Option LogLevels) : Nat :=
  criticalCount levels + errorCountOf levels

/-- Helper shared by the claims: the four defaulted severity counts sum to
the `Object.values` total. -/
theorem totalLogs_eq (levels : Option LogLevels) :
    totalLogs levels =
      criticalCount levels + errorCountOf levels + warningCountOf levels +
        infoCountOf levels := by
  cases levels with
  | none => rfl
  | some v =>
    obtain ⟨c, e, w, i⟩ := v
    cases c <;> cases e <;> cases w <;> cases i <;>
      simp [totalLogs, LogLevels.values, List.reduceOption, criticalCount,
        errorCountOf, warningCountOf, infoCountOf, Option.bind] <;> omega

/-- RecommendationFeed output: either the explicit "All systems optimal"
empty-state marker or the 1-indexed items. -/
inductive RecFeed where
  | optimal
  | items (l : List (Nat × String))
deriving DecidableEq, Repr

/-- `updateRecommendations(newRecommendations)`: absent or empty input
renders the "✅ All systems optimal" marker, otherwise each entry is shown
with the 1-based index `i + 1`. -/
def updateRecommendations (newRecommendations : Option (List String)) : RecFeed :=
  match newRecommendations with
  | none => .optimal
  | some l =>
      if l.length = 0 then .optimal
      else .items (l.enum.map fun p => (p.1 + 1, p.2))

/-- C2: for every `logLevels` input the log status dot is red when
`critical > 0`, else yellow when `warning > 0`, else green; and the dot is
a function of the critical and warning counts only, so the error count by
itself never changes it. -/
theorem C2 (costHealth : Option String) (logLevels : Option LogLevels) :
    (0 < criticalCount logLevels →
      (updateStatusIndicators costHealth logLevels).logStatus = "red") ∧
    (criticalCount logLevels = 0 → 0 < warningCountOf logLevels →
      (updateStatusIndicators costHealth logLevels).logStatus = "yellow") ∧
    (criticalCount logLevels = 0 → warningCountOf logLevels = 0 →
      (updateStatusIndicators costHealth logLevels).logStatus = "green") ∧
    (∀ other : Option LogLevels,
      criticalCount other = criticalCount logLevels →
      warningCountOf other = warningCountOf logLevels →
      (updateStatusIndicators costHealth other).logStatus =
        (updateStatusIndicators costHealth logLevels).logStatus) := by
  refine ⟨?_, ?_, ?_, ?_⟩
  · intro h
    simp [updateStatusIndicators, h]
  · intro h0 hw
    simp [updateStatusIndicators, h0, hw]
  · intro h0 hw
    simp [updateStatusIndicators, h0, hw]
  · intro other hc hw
    simp [updateStatusIndicators, hc, hw]

/-- C2 witness: concrete evaluation with one critical, plus an error-only
snapshot keeping the dot green. -/
theorem C2_witness :
    (updateStatusIndicators (some "ok") (some ⟨some 1, some 7, none, none⟩)).logStatus
        = "red" ∧
    (updateStatusIndicators (some "ok") (some ⟨none, some 7, none, none⟩)).logStatus
        = "green" := by
  constructor
  · exact (C2 (some "ok") (some ⟨some 1, some 7, none, none⟩)).1 (by decide)
  · exact (C2 (some "ok") (some ⟨none, some 7, none, none⟩)).2.2.1 (by decide) (by decide)

/-- C7: for every `logLevels` mapping the four reported severity counts
(missing keys as 0) sum to the `Object.values` total. -/
theorem C7 (levels : Option LogLevels) :
    criticalCount levels + errorCountOf levels + warningCountOf levels +
      infoCountOf levels = totalLogs levels :=
  (totalLogs_eq levels).symm

/-- C6: the recommendation feed returns the marker on absent or empty
input, and otherwise the items in input order with 1-based indices. -/
theorem C6 :
    updateRecommendations none = .optimal ∧
    updateRecommendations (some []) = .optimal ∧
    ∀ l : List String, l ≠ [] → ∃ il,
      updateRecommendations (some l) = .items il ∧
      il.map Prod.snd = l ∧
      il.map Prod.fst = (List.range l.length).map (fun i => i + 1) := by
  refine ⟨rfl, rfl, ?_⟩
  intro l hl
  refine ⟨l.enum.map fun p => (p.1 + 1, p.2), ?_, ?_, ?_⟩
  · simp [updateRecommendations, List.length_eq_zero, hl]
  · rw [List.map_map,
      show (Prod.snd ∘ fun p : Nat × String => (p.1 + 1, p.2)) = Prod.snd from rfl,
      List.enum_map_snd]
  · rw [List.map_map,
      show (Prod.fst ∘ fun p : Nat × String => (p.1 + 1, p.2))
        = ((fun i => i + 1) ∘ Prod.fst) from rfl,
      ← List.map_map, List.enum_map_fst]

/-- C6 witness: the two-element feed keeps order and numbers the entries
1 and 2. -/
theorem C6_witness : ∃ il,
    updateRecommendations (some ["x", "y"]) = .items il ∧
    il.map Prod.snd = ["x", "y"] ∧
    il.map Prod.fst = [1, 2] := by
  obtain ⟨il, h1, h2, h3⟩ := C6.2.2 ["x", "y"] (by decide)
  exact ⟨il, h1, h2, by rw [h3]; rfl⟩

/-- C1 counterexample: the claim wants the overall label `Critical`
whenever the qualitative health flag is `critical`, but the code's
`updateStatus` derives `Critical` from the count alone: with the flag at
`critical` and a zero count it answers `Healthy`. -/
theorem C1_counterexample :
    updateStatus (some "critical") (some 0) = "Healthy" ∧
    updateStatus (some "critical") (some 0) ≠ "Critical" := by decide

/-- C1 amended: the overall label is `Critical` exactly when the count
exceeds the hard-coded threshold 5 (the flag never escalates to
`Critical`); below that it is `Degraded` iff the sentiment flag is
`Negative` or the count is positive, else `Healthy`; a count of 6 always
yields `Critical`. -/
theorem C1_amended (sentiment : Option String) (errorCount : Option ℤ) :
    (updateStatus sentiment errorCount = "Critical" ↔ jsNumGt errorCount 5 = true) ∧
    (jsNumGt errorCount 5 = false →
      (updateStatus sentiment errorCount = "Degraded" ↔
        (sentiment = some "Negative" ∨ jsNumGt errorCount 0 = true))) ∧
    (jsNumGt errorCount 5 = false →
      ¬(sentiment = some "Negative" ∨ jsNumGt errorCount 0 = true) →
      updateStatus sentiment errorCount = "Healthy") ∧
    updateStatus sentiment (some 6) = "Critical" := by
  refine ⟨?_, ?_, ?_, ?_⟩
  · cases h5 : jsNumGt errorCount 5
    · simp only [updateStatus, h5, Bool.false_eq_true, if_false]
      constructor
      · intro h
        split at h <;> simp_all
      · simp
    · simp [updateStatus, h5]
  · intro h5
    simp only [updateStatus, h5]
    simp only [show (false = true) = False by simp, if_false]
    split <;> simp_all
  · intro h5 hd
    simp [updateStatus, h5, hd]
  · simp [updateStatus, jsNumGt]

/-- C1 witness: concrete runs of the amended statement. -/
theorem C1_witness :
    updateStatus (some "Negative") (some 3) = "Degraded" ∧
    updateStatus none none = "Healthy" :=
  ⟨((C1_amended (some "Negative") (some 3)).2.1 (by decide)).mpr (Or.inl rfl),
   (C1_amended none none).2.2.1 (by decide) (by decide)⟩

/-- ES `toFixed` rounding of `x` to an integer: nearest, ties to the larger
value (the magnitude is always nonnegative where this is applied). -/
def jsRound (x : ℚ) : ℤ := (2 * x.num + x.den) / (2 * (x.den : ℤ))

/-- The value `toFixed(1)` prints, as tenths: round `|q| * 10`. -/
def tenthsOf (q : ℚ) : ℤ := jsRound ((if q < 0 then -q else q) * 10)

/-- `costChange.toFixed(1)`: sign, integer part, dot, one fractional digit. -/
def toFixed1 (q : ℚ) : String :=
  (if q < 0 then "-" else "") ++ toString (tenthsOf q / 10) ++ "." ++
    toString (tenthsOf q % 10).toNat

/-- `costChange > 0 ? 'up' : 'down'` (updateExecutiveSummary). -/
def trendClass (q : ℚ) : String := if 0 < q then "up" else "down"

/-- `costChange > 0 ? '+' : ''`. -/
def trendSign (q : ℚ) : String := if 0 < q then "+" else ""

/-- The rendered trend figure: `trendSign + costChange.toFixed(1) + '%'`. -/
def trendDisplay (q : ℚ) : String := trendSign q ++ toFixed1 q ++ "%"

/-- `data.cost_trend?.change_percentage || 0`. -/
def costChangeOf (ct : Option CostTrend) : ℚ :=
  (ct.bind CostTrend.change_percentage).getD 0

/-- `data.cost_trend?.total_cost || 0`. -/
def totalCostOf (ct : Option CostTrend) : ℚ :=
  (ct.bind CostTrend.total_cost).getD 0

/-- Helper: a change of exactly 0 renders class `down` and the string
`0.0%`. -/
theorem trendDisplay_zero : trendClass 0 = "down" ∧ trendDisplay 0 = "0.0%" := by
  constructor
  · rw [trendClass, if_neg (by norm_num : ¬ (0 : ℚ) < 0)]
  · rw [trendDisplay, trendSign, toFixed1, if_neg (by norm_num : ¬ (0 : ℚ) < 0),
      (by norm_num [tenthsOf, jsRound] : tenthsOf 0 = 0)]
    rfl

/-- C3 counterexample: at `changePercentage = 0` the code renders the
direction `down`, not `flat`, and formats with one decimal (`0.0%`), not
two (`0.00%`). -/
theorem C3_counterexample :
    trendClass 0 ≠ "flat" ∧ trendClass 0 = "down" ∧
    trendDisplay 0 ≠ "0.00%" ∧ trendDisplay 0 = "0.0%" := by
  refine ⟨?_, trendDisplay_zero.1, ?_, trendDisplay_zero.2⟩
  · rw [trendDisplay_zero.1]
    decide
  · rw [trendDisplay_zero.2]
    decide

/-- C3 amended: direction is `up` for positive change and `down` otherwise
(including exactly 0); the rendered percentage carries an explicit `+` only
for positive values and always has exactly one digit after the decimal
point. -/
theorem C3_amended (q : ℚ) :
    (0 < q → trendClass q = "up") ∧
    (q ≤ 0 → trendClass q = "down") ∧
    (0 < q → trendDisplay q = "+" ++ toFixed1 q ++ "%") ∧
    (q ≤ 0 → trendDisplay q = "" ++ toFixed1 q ++ "%") ∧
    (∃ pre : String, ∃ d : Nat, d < 10 ∧ toFixed1 q = pre ++ "." ++ toString d) := by
  refine ⟨?_, ?_, ?_, ?_, ?_⟩
  · intro h
    rw [trendClass, if_pos h]
  · intro h
    rw [trendClass, if_neg (not_lt.mpr h)]
  · intro h
    rw [trendDisplay, trendSign, if_pos h]
  · intro h
    rw [trendDisplay, trendSign, if_neg (not_lt.mpr h)]
  · refine ⟨(if q < 0 then "-" else "") ++ toString (tenthsOf q / 10),
      (tenthsOf q % 10).toNat, ?_, rfl⟩
    have h1 : 0 ≤ tenthsOf q % 10 := Int.emod_nonneg _ (by norm_num)
    have h2 : tenthsOf q % 10 < 10 := Int.emod_lt_of_pos _ (by norm_num)
    omega

/-- C3 witness: a change of +1 percent is classed `up` and rendered
`+1.0%`. -/
theorem C3_witness : trendClass 1 = "up" ∧ trendDisplay 1 = "+1.0%" := by
  refine ⟨(C3_amended 1).1 (by norm_num), ?_⟩
  rw [(C3_amended 1).2.2.1 (by norm_num),
    show toFixed1 1 = "1.0" by
      rw [toFixed1, if_neg (by norm_num : ¬ (1 : ℚ) < 0),
        (by norm_num [tenthsOf, jsRound] : tenthsOf 1 = 10)]
      rfl]
  rfl

/-- The observable output of `updateLogHealth` (`part_000`): the displayed
status text, the emoji, the meter color and width, and the tooltip reason. -/
structure HealthView where
  statusText : String
  emoji : String
  meterColor : String
  meterWidth : ℤ
  reason : String
deriving DecidableEq, Repr

/-- `updateLogHealth(status)` of `part_000`: the label is
`status || 'Stable'`; `health_score ?? 50` drives the emoji and meter color
(happy/green at `>= 80`, angry/red below 50, otherwise neutral/yellow); the
meter width is the raw score; `health_reason ?? 'No data available'` is the
tooltip. -/
def updateLogHealth (status : Option String) (health_score : Option ℤ)
    (health_reason : Option String) : HealthView :=
  let statusText := jsOr status "Stable"
  let healthScore := health_score.getD 50
  let healthReason := health_reason.getD "No data available"
  let look : String × String :=
    if 80 ≤ healthScore then ("😊", "var(--success-color)")
    else if healthScore < 50 then ("😡", "var(--error-color)")
    else ("😐", "var(--warning-color)")
  ⟨statusText, look.1, look.2, healthScore, healthReason⟩

/-- C4 counterexample: with a score of 90 and no `log_health_status`, the
claim wants the label `Healthy`, but the code displays the passthrough
default `Stable` (the score only drives the emoji and color). -/
theorem C4_counterexample :
    (updateLogHealth none (some 90) none).statusText = "Stable" ∧
    (updateLogHealth none (some 90) none).statusText ≠ "Healthy" ∧
    (updateLogHealth none (some 90) none).emoji = "😊" := by decide

/-- C4 amended: the displayed label is the `log_health_status` passthrough
defaulting to `Stable` (never derived from the score); the score tier
drives the emoji/meter color with thresholds `>= 80` and `< 50`; the meter
width equals the raw score; an absent score defaults to 50 and an absent
reason to "No data available". -/
theorem C4_amended (status : Option String) (health_score : Option ℤ)
    (health_reason : Option String) :
    (updateLogHealth status health_score health_reason).statusText
        = jsOr status "Stable" ∧
    (status = none →
      (updateLogHealth status health_score health_reason).statusText = "Stable") ∧
    (80 ≤ health_score.getD 50 →
      (updateLogHealth status health_score health_reason).emoji = "😊" ∧
      (updateLogHealth status health_score health_reason).meterColor
        = "var(--success-color)") ∧
    (health_score.getD 50 < 50 →
      (updateLogHealth status health_score health_reason).emoji = "😡" ∧
      (updateLogHealth status health_score health_reason).meterColor
        = "var(--error-color)") ∧
    (50 ≤ health_score.getD 50 → health_score.getD 50 < 80 →
      (updateLogHealth status health_score health_reason).emoji = "😐" ∧
      (updateLogHealth status health_score health_reason).meterColor
        = "var(--warning-color)") ∧
    (updateLogHealth status health_score health_reason).meterWidth
        = health_score.getD 50 ∧
    (health_score = none →
      (updateLogHealth status health_score health_reason).meterWidth = 50) ∧
    (health_reason = none →
      (updateLogHealth status health_score health_reason).reason
        = "No data available") := by
  refine ⟨rfl, ?_, ?_, ?_, ?_, rfl, ?_, ?_⟩
  · intro h
    subst h
    rfl
  · intro h
    constructor <;> simp [updateLogHealth, if_pos h]
  · intro h
    have h8 : ¬ 80 ≤ health_score.getD 50 := by omega
    constructor <;> simp [updateLogHealth, if_neg h8, if_pos h]
  · intro h5 h8
    have h8n : ¬ 80 ≤ health_score.getD 50 := by omega
    have h5n : ¬ health_score.getD 50 < 50 := by omega
    constructor <;> simp [updateLogHealth, if_neg h8n, if_neg h5n]
  · intro h
    subst h
    rfl
  · intro h
    subst h
    rfl

/-- C4 witness: absent score yields the documented defaults; a score of 90
turns the meter green. -/
theorem C4_witness :
    (updateLogHealth none none none).statusText = "Stable" ∧
    (updateLogHealth none none none).meterWidth = 50 ∧
    (updateLogHealth none none none).reason = "No data available" ∧
    (updateLogHealth none (some 90) none).meterColor = "var(--success-color)" :=
  ⟨(C4_amended none none none).2.1 rfl,
   (C4_amended none none none).2.2.2.2.2.2.1 rfl,
   (C4_amended none none none).2.2.2.2.2.2.2 rfl,
   ((C4_amended none (some 90) none).2.2.1 (by decide)).2⟩

/-- One entry of the `errorGroups` accumulator of `updateTopErrors`:
the `type` key, the running `count`, and the first-seen entry. -/
structure ErrorGroup where
  type : String
  count : Nat
  first : ErrorEntry
deriving DecidableEq, Repr

/-- One step of the `errorDetails.forEach` accumulation: create the group
on first sight of a type, otherwise increment its count.  The accumulator
list records property-creation (insertion) order; the enumeration order of
`Object.entries` is modelled separately by `entriesOrder`. -/
def bump : List ErrorGroup → ErrorEntry → List ErrorGroup
  | [], e => [⟨e.type, 1, e⟩]
  | g :: gs, e =>
      if g.type = e.type then ⟨g.type, g.count + 1, g.first⟩ :: gs
      else g :: bump gs e

/-- The `errorGroups` object after the `forEach`, in property-creation
order. -/
def groupByType (l : List ErrorEntry) : List ErrorGroup := l.foldl bump []

/-- Numeric value of a digit string (how an array-index property name
denotes a number). -/
def parseNat (s : String) : Nat :=
  s.data.foldl (fun n c => n * 10 + (c.toNat - 48)) 0

/-- Whether a property name is an array index in the ECMAScript sense: the
canonical decimal form (digits only, no redundant leading zero) of an
integer below `2 ^ 32 - 1`.  JavaScript enumerates such keys before all
other string keys. -/
def isArrayIndex (s : String) : Bool :=
  !s.data.isEmpty && s.data.all Char.isDigit &&
    (s == "0" || s.data.head? != some '0') &&
    decide (parseNat s < 4294967295)

/-- Ascending numeric order on array-index-typed groups. -/
def idxLe (a b : ErrorGroup) : Prop := parseNat a.type ≤ parseNat b.type

instance : DecidableRel idxLe :=
  fun a b => inferInstanceAs (Decidable (parseNat a.type ≤ parseNat b.type))

instance : IsTotal ErrorGroup idxLe := ⟨fun _ _ => le_total _ _⟩

instance : IsTrans ErrorGroup idxLe := ⟨fun _ _ _ => le_trans⟩

/-- `Object.entries(errorGroups)` enumeration order
(OrdinaryOwnPropertyKeys): array-index keys first in ascending numeric
order, then the remaining string keys in property-creation order. -/
def entriesOrder (gs : List ErrorGroup) : List ErrorGroup :=
  List.insertionSort idxLe (gs.filter fun g => isArrayIndex g.type) ++
    (gs.filter fun g => !isArrayIndex g.type)

/-- The comparator `(a, b) => b[1].count - a[1].count`: `a` may precede `b`
iff `b`'s count is at most `a`'s. -/
def grpLe (a b : ErrorGroup) : Prop := b.count ≤ a.count

instance : DecidableRel grpLe :=
  fun a b => inferInstanceAs (Decidable (b.count ≤ a.count))

instance : IsTotal ErrorGroup grpLe := ⟨fun a b => le_total b.count a.count⟩

instance : IsTrans ErrorGroup grpLe := ⟨fun _ _ _ h1 h2 => le_trans h2 h1⟩

/-- `Object.entries(errorGroups).sort((a, b) => b[1].count - a[1].count)`:
JavaScript sort is stable, so a stable descending sort of the entries in
their enumeration order is the faithful embedding. -/
def rankedGroups (l : List ErrorEntry) : List ErrorGroup :=
  List.insertionSort grpLe (entriesOrder (groupByType l))

/-- UTF-16 encoding of one character: scalar values beyond the basic
multilingual plane encode as a surrogate pair, exactly the units
JavaScript string indexing counts. -/
def charUtf16 (c : Char) : List Nat :=
  if c.toNat < 65536 then [c.toNat]
  else [55296 + (c.toNat - 65536) / 1024, 56320 + (c.toNat - 65536) % 1024]

/-- A string as JavaScript sees it: its sequence of UTF-16 code units. -/
def utf16Units (s : String) : List Nat :=
  (s.data.map charUtf16).flatten

/-- Well-formedness of a UTF-16 unit sequence: every high surrogate is
followed by a low surrogate and no low surrogate stands alone; a cut that
splits a surrogate pair makes this false. -/
def wellFormedUtf16 : List Nat → Bool
  | [] => true
  | [u] => !(55296 ≤ u && u ≤ 57343)
  | u :: v :: us =>
      if 55296 ≤ u && u ≤ 56319 then
        (56320 ≤ v && v ≤ 57343) && wellFormedUtf16 us
      else
        !(56320 ≤ u && u ≤ 57343) && wellFormedUtf16 (v :: us)

/-- `data.first.message.substring(0, 60)` followed by the literal ellipsis
the template always appends, at the UTF-16 code-unit granularity
`substring` actually uses. -/
def truncMsgUnits (m : String) : List Nat :=
  (utf16Units m).take 60 ++ utf16Units "..."

/-- One rendered row of the top-errors card (the sample as the code-unit
sequence the browser receives). -/
structure TopErrorItem where
  type : String
  count : Nat
  sample : List Nat
deriving DecidableEq, Repr

/-- Output of `updateTopErrors`: the "✅ No errors" empty-state marker or
the rendered rows. -/
inductive TopErrors where
  | noErrors
  | groups (items : List TopErrorItem)
deriving DecidableEq, Repr

/-- The row rendered for one group. -/
def displayGroup (g : ErrorGroup) : TopErrorItem :=
  ⟨g.type, g.count, truncMsgUnits g.first.message⟩

/-- `updateTopErrors(errorDetails)` (first revision of `script.js`):
absent or empty detail list renders the marker; otherwise group by type,
sort the entries by count descending (stable), keep the top 5, and render
type, count and truncated sample. -/
def updateTopErrors : Option (List ErrorEntry) → TopErrors
  | none => .noErrors
  | some l =>
      if l.length = 0 then .noErrors
      else .groups (((rankedGroups l).take 5).map displayGroup)

/-- Inserting an element that fails `p` does not change the `p`-filtered
list. -/
theorem filter_orderedInsert_neg (p : ErrorGroup → Bool) (x : ErrorGroup)
    (hx : p x = false) (l : List ErrorGroup) :
    (List.orderedInsert grpLe x l).filter p = l.filter p := by
  induction l with
  | nil => simp [List.orderedInsert, hx]
  | cons y ys ih =>
    rw [List.orderedInsert]
    split
    · simp [List.filter_cons, hx]
    · simp [List.filter_cons, ih]

/-- Inserting an element satisfying `p`, when every element it skips over
fails `p`, prepends it to the `p`-filtered list: the stability core. -/
theorem filter_orderedInsert_pos (p : ErrorGroup → Bool) (x : ErrorGroup)
    (hx : p x = true) (l : List ErrorGroup)
    (hskip : ∀ y ∈ l, ¬ grpLe x y → p y = false) :
    (List.orderedInsert grpLe x l).filter p = x :: l.filter p := by
  induction l with
  | nil => simp [List.orderedInsert, hx]
  | cons y ys ih =>
    rw [List.orderedInsert]
    split
    · simp [List.filter_cons, hx]
    · rename_i h
      have hy : p y = false := hskip y (List.mem_cons_self y ys) h
      rw [List.filter_cons, if_neg (by simp [hy]), List.filter_cons,
        if_neg (by simp [hy])]
      exact ih fun z hz hnz => hskip z (List.mem_cons_of_mem y hz) hnz

/-- Stability of the embedded sort: groups of any fixed count keep their
relative (first-seen) order. -/
theorem filter_insertionSort_eq (c : Nat) (l : List ErrorGroup) :
    (List.insertionSort grpLe l).filter (fun g => g.count == c)
      = l.filter (fun g => g.count == c) := by
  induction l with
  | nil => rfl
  | cons a l ih =>
    rw [List.insertionSort]
    by_cases ha : a.count = c
    · have hskip : ∀ y ∈ List.insertionSort grpLe l, ¬ grpLe a y →
          (fun g : ErrorGroup => g.count == c) y = false := by
        intro y _ hny
        have hlt : a.count < y.count := Nat.lt_of_not_le (by simpa [grpLe] using hny)
        simp only [beq_eq_false_iff_ne, ne_eq]
        omega
      rw [filter_orderedInsert_pos _ a (by simp [ha]) _ hskip, ih,
        List.filter_cons, if_pos (by simp [ha])]
    · rw [filter_orderedInsert_neg _ a (by simp [ha]), ih,
        List.filter_cons, if_neg (by simp [ha])]

/-- Number of entries of type `t` seen so far. -/
def countIn (seen : List ErrorEntry) (t : String) : Nat :=
  (seen.filter (fun e => e.type == t)).length

/-- First entry of type `t` seen so far. -/
def findIn (seen : List ErrorEntry) (t : String) : Option ErrorEntry :=
  seen.find? (fun e => e.type == t)

/-- Correctness invariant of the `errorGroups` accumulator: every group
carries the exact occurrence count and the first-seen entry of its type,
types are pairwise distinct, and a type appears iff some seen entry has
it. -/
def GroupsOk (seen : List ErrorEntry) (gs : List ErrorGroup) : Prop :=
  (∀ g ∈ gs, g.count = countIn seen g.type ∧ findIn seen g.type = some g.first) ∧
  (gs.map ErrorGroup.type).Nodup ∧
  (∀ t : String, t ∈ gs.map ErrorGroup.type ↔ ∃ e ∈ seen, e.type = t)

theorem bump_not_mem (e : ErrorEntry) (gs : List ErrorGroup)
    (h : e.type ∉ gs.map ErrorGroup.type) :
    bump gs e = gs ++ [⟨e.type, 1, e⟩] := by
  induction gs with
  | nil => rfl
  | cons g gs ih =>
    simp only [List.map_cons, List.mem_cons, not_or] at h
    rw [bump, if_neg fun he => h.1 he.symm, ih h.2]
    rfl

theorem bump_mem (e : ErrorEntry) (gs : List ErrorGroup)
    (h : e.type ∈ gs.map ErrorGroup.type) :
    ∃ pre g post, gs = pre ++ g :: post ∧ g.type = e.type ∧
      e.type ∉ pre.map ErrorGroup.type ∧
      bump gs e = pre ++ ⟨g.type, g.count + 1, g.first⟩ :: post := by
  induction gs with
  | nil => simp at h
  | cons g0 gs ih =>
    by_cases hg : g0.type = e.type
    · exact ⟨[], g0, gs, rfl, hg, by simp, by rw [bump, if_pos hg]; rfl⟩
    · have h2 : e.type ∈ gs.map ErrorGroup.type := by
        simp only [List.map_cons, List.mem_cons] at h
        exact h.resolve_left fun he => hg he.symm
      obtain ⟨pre, g, post, hd, ht, hp, hb⟩ := ih h2
      refine ⟨g0 :: pre, g, post, by rw [List.cons_append, ← hd], ht, ?_, ?_⟩
      · simp only [List.map_cons, List.mem_cons, not_or]
        exact ⟨fun he => hg he.symm, hp⟩
      · rw [bump, if_neg hg, hb]
        rfl

theorem countIn_append (seen : List ErrorEntry) (e : ErrorEntry) (t : String) :
    countIn (seen ++ [e]) t = countIn seen t + (if e.type = t then 1 else 0) := by
  by_cases h : e.type = t
  · simp [countIn, List.filter_append, h]
  · simp [countIn, List.filter_append, h]

theorem findIn_append_of_some (seen rest : List ErrorEntry) (t : String)
    (f : ErrorEntry) (h : findIn seen t = some f) :
    findIn (seen ++ rest) t = some f := by
  rw [findIn, List.find?_append]
  rw [findIn] at h
  rw [h]
  rfl

theorem findIn_append_of_none (seen : List ErrorEntry) (e : ErrorEntry)
    (t : String) (h : findIn seen t = none) :
    findIn (seen ++ [e]) t = if e.type = t then some e else none := by
  rw [findIn, List.find?_append]
  rw [findIn] at h
  rw [h]
  by_cases he : e.type = t
  · have hb : (e.type == t) = true := by simp [he]
    simp [List.find?, hb, he]
  · have hb : (e.type == t) = false := by simp [he]
    simp [List.find?, hb, he]

/-- One `forEach` step preserves the accumulator invariant. -/
theorem groupsOk_step {seen : List ErrorEntry} {gs : List ErrorGroup}
    (h : GroupsOk seen gs) (e : ErrorEntry) :
    GroupsOk (seen ++ [e]) (bump gs e) := by
  obtain ⟨hg, hnd, hiff⟩ := h
  by_cases hm : e.type ∈ gs.map ErrorGroup.type
  · obtain ⟨pre, g, post, hdec, htype, hpre, hbump⟩ := bump_mem e gs hm
    subst hdec
    have hmapEq : ((pre ++ ⟨g.type, g.count + 1, g.first⟩ :: post).map ErrorGroup.type)
        = ((pre ++ g :: post).map ErrorGroup.type) := by
      simp
    have hgnotpost : g.type ∉ post.map ErrorGroup.type := by
      have := hnd
      rw [List.map_append, List.nodup_append] at this
      have h3 := this.2.1
      rw [List.map_cons, List.nodup_cons] at h3
      exact h3.1
    refine ⟨?_, by rw [hbump, hmapEq]; exact hnd, ?_⟩
    · intro g2 hg2
      rw [hbump] at hg2
      rcases List.mem_append.mp hg2 with hin | hin
      · have hne : e.type ≠ g2.type := by
          intro hcontra
          exact hpre (hcontra ▸ List.mem_map_of_mem _ hin)
        obtain ⟨hc, hf⟩ := hg g2 (List.mem_append_left _ hin)
        refine ⟨?_, findIn_append_of_some _ _ _ _ hf⟩
        rw [countIn_append, if_neg hne]
        omega
      · rcases List.mem_cons.mp hin with rfl | hin
      -- the incremented head group
        · obtain ⟨hc, hf⟩ := hg g (List.mem_append_right _ (List.mem_cons_self _ _))
          constructor
          · show g.count + 1 = countIn (seen ++ [e]) g.type
            rw [countIn_append, if_pos htype.symm]
            omega
          · show findIn (seen ++ [e]) g.type = some g.first
            exact findIn_append_of_some _ _ _ _ hf
        · have hne : e.type ≠ g2.type := by
            intro hcontra
            have : g2.type ∈ post.map ErrorGroup.type := List.mem_map_of_mem _ hin
            rw [← hcontra, ← htype] at this
            exact hgnotpost this
          obtain ⟨hc, hf⟩ := hg g2
            (List.mem_append_right _ (List.mem_cons_of_mem _ hin))
          refine ⟨?_, findIn_append_of_some _ _ _ _ hf⟩
          rw [countIn_append, if_neg hne]
          omega
    · intro t
      rw [hbump, hmapEq]
      constructor
      · intro htm
        obtain ⟨x, hx, hxt⟩ := (hiff t).mp htm
        exact ⟨x, List.mem_append_left _ hx, hxt⟩
      · rintro ⟨x, hx, hxt⟩
        rcases List.mem_append.mp hx with hxs | hxe
        · exact (hiff t).mpr ⟨x, hxs, hxt⟩
        · rw [List.mem_singleton] at hxe
          subst hxe
          rw [← hxt, ← htype]
          exact List.mem_map_of_mem _ (List.mem_append_right _ (List.mem_cons_self _ _))
  · rw [bump_not_mem e gs hm]
    have hnone : ∀ x ∈ seen, ¬ x.type = e.type := by
      intro x hx hxt
      exact hm ((hiff e.type).mpr ⟨x, hx, hxt⟩)
    have hfind : findIn seen e.type = none := by
      rw [findIn, List.find?_eq_none]
      intro x hx
      simpa using hnone x hx
    have hcount : countIn seen e.type = 0 := by
      rw [countIn, List.length_eq_zero, List.filter_eq_nil_iff]
      intro x hx
      simpa using hnone x hx
    refine ⟨?_, ?_, ?_⟩
    · intro g hgmem
      rcases List.mem_append.mp hgmem with hold | hnew
      · have hne : e.type ≠ g.type := by
          intro hcontra
          exact hm (hcontra ▸ List.mem_map_of_mem _ hold)
        obtain ⟨hc, hf⟩ := hg g hold
        refine ⟨?_, findIn_append_of_some _ _ _ _ hf⟩
        rw [countIn_append, if_neg hne]
        omega
      · rw [List.mem_singleton] at hnew
        subst hnew
        constructor
        · show (1 : Nat) = countIn (seen ++ [e]) e.type
          rw [countIn_append, if_pos rfl, hcount]
        · show findIn (seen ++ [e]) e.type = some e
          rw [findIn_append_of_none _ _ _ hfind, if_pos rfl]
    · rw [List.map_append]
      refine List.Nodup.append hnd (by simp) ?_
      intro t htm hts
      simp only [List.map_cons, List.map_nil, List.mem_singleton] at hts
      subst hts
      exact hm htm
    · intro t
      rw [List.map_append]
      simp only [List.mem_append, List.map_cons, List.map_nil,
        List.mem_singleton]
      constructor
      · rintro (htm | rfl)
        · obtain ⟨x, hx, hxt⟩ := (hiff t).mp htm
          exact ⟨x, Or.inl hx, hxt⟩
        · exact ⟨e, Or.inr rfl, rfl⟩
      · rintro ⟨x, hx, hxt⟩
        rcases hx with hxs | rfl
        · exact Or.inl ((hiff t).mpr ⟨x, hxs, hxt⟩)
        · exact Or.inr hxt.symm

theorem groupsOk_foldl (rest : List ErrorEntry) :
    ∀ (seen : List ErrorEntry) (gs : List ErrorGroup), GroupsOk seen gs →
      GroupsOk (seen ++ rest) (rest.foldl bump gs) := by
  induction rest with
  | nil =>
    intro seen gs h
    simpa using h
  | cons e rest ih =>
    intro seen gs h
    have h2 := ih (seen ++ [e]) (bump gs e) (groupsOk_step h e)
    simpa [List.append_assoc] using h2

/-- The accumulator invariant holds of the finished grouping. -/
theorem groupByType_ok (l : List ErrorEntry) : GroupsOk l (groupByType l) := by
  have h := groupsOk_foldl l [] [] ⟨by simp, by simp, by simp [countIn, findIn]⟩
  simpa [groupByType] using h

/-- A grouping whose type keys are all non-index strings enumerates in
pure property-creation order. -/
theorem entriesOrder_of_no_index (gs : List ErrorGroup)
    (h : ∀ g ∈ gs, isArrayIndex g.type = false) : entriesOrder gs = gs := by
  have h1 : (gs.filter fun g => isArrayIndex g.type) = [] :=
    List.filter_eq_nil_iff.mpr (by intro g hg; simp [h g hg])
  have h2 : (gs.filter fun g => !isArrayIndex g.type) = gs :=
    List.filter_eq_self.mpr (by intro g hg; simp [h g hg])
  rw [entriesOrder, h1, h2]
  rfl

/-- Every group type is the type of some input entry. -/
theorem groupByType_types (l : List ErrorEntry) (g : ErrorGroup)
    (hg : g ∈ groupByType l) : ∃ e ∈ l, e.type = g.type :=
  ((groupByType_ok l).2.2 g.type).mp (List.mem_map_of_mem _ hg)

/-- C5 counterexample, refuting three conjuncts of the claim at concrete
inputs.  Ellipsis: a 4-character message is far below the cap yet renders
with `'...'` appended.  Splitting: a message of 59 one-unit characters
followed by one astral character is a well-formed unit sequence, but the
60-unit cut of `substring(0, 60)` keeps only the high surrogate — the
truncation splits the multi-byte character.  Tie-break: array-index type
keys `"10"` then `"2"`, tied at one occurrence each, come back in numeric
enumeration order `"2", "10"`, not first-seen order. -/
theorem C5_counterexample :
    updateTopErrors (some [⟨"E1", "A", "boom", none, none⟩])
        = .groups [⟨"A", 1, utf16Units "boom..."⟩] ∧
    (utf16Units "boom").length ≤ 60 ∧
    wellFormedUtf16
        (utf16Units (String.mk (List.replicate 59 'x' ++ ['😀']))) = true ∧
    wellFormedUtf16
        (truncMsgUnits (String.mk (List.replicate 59 'x' ++ ['😀']))) = false ∧
    (rankedGroups [⟨"E1", "10", "m", none, none⟩,
        ⟨"E2", "2", "m", none, none⟩]).map ErrorGroup.type = ["2", "10"] ∧
    (groupByType [⟨"E1", "10", "m", none, none⟩,
        ⟨"E2", "2", "m", none, none⟩]).map ErrorGroup.type = ["10", "2"] := by
  decide

/-- C5 amended: the top-errors card shows at most 5 groups, sorted by count
descending with ties kept in the object's enumeration order — which is
first-seen order whenever no type key is an array-index string (JavaScript
enumerates integer-like keys first, numerically); every group carries its
type, its exact occurrence count and the first-seen entry of that type; the
sample is the message cut at its first 60 UTF-16 code units — a cut that
can split an astral character — with an ellipsis appended
unconditionally. -/
theorem C5_amended (l : List ErrorEntry) (hl : l ≠ []) :
    updateTopErrors (some l)
        = .groups (((rankedGroups l).take 5).map displayGroup) ∧
    (((rankedGroups l).take 5).map displayGroup).length ≤ 5 ∧
    List.Sorted grpLe ((rankedGroups l).take 5) ∧
    (∀ c : Nat, (rankedGroups l).filter (fun g => g.count == c)
        = (entriesOrder (groupByType l)).filter (fun g => g.count == c)) ∧
    ((∀ e ∈ l, isArrayIndex e.type = false) →
      ∀ c : Nat, (rankedGroups l).filter (fun g => g.count == c)
        = (groupByType l).filter (fun g => g.count == c)) ∧
    (∀ g ∈ groupByType l,
      g.count = countIn l g.type ∧ findIn l g.type = some g.first) ∧
    (∀ g ∈ rankedGroups l,
      (displayGroup g).sample = (utf16Units g.first.message).take 60
          ++ utf16Units "..." ∧
      (displayGroup g).sample.length ≤ 63 ∧
      utf16Units "..." <:+ (displayGroup g).sample) := by
  refine ⟨?_, ?_, ?_, fun c => filter_insertionSort_eq c (entriesOrder (groupByType l)),
    ?_, (groupByType_ok l).1, ?_⟩
  · rw [updateTopErrors, if_neg (by simpa [List.length_eq_zero] using hl)]
  · rw [List.length_map, List.length_take]
    omega
  · exact List.Pairwise.sublist (List.take_sublist 5 _)
      (List.sorted_insertionSort grpLe _)
  · intro hno c
    have hg : ∀ g ∈ groupByType l, isArrayIndex g.type = false := by
      intro g hgmem
      obtain ⟨e, he, het⟩ := groupByType_types l g hgmem
      rw [← het]
      exact hno e he
    rw [rankedGroups, entriesOrder_of_no_index _ hg]
    exact filter_insertionSort_eq c (groupByType l)
  · intro g _
    refine ⟨rfl, ?_, List.suffix_append _ _⟩
    show ((utf16Units g.first.message).take 60 ++ utf16Units "...").length ≤ 63
    rw [List.length_append]
    have h60 : ((utf16Units g.first.message).take 60).length ≤ 60 :=
      List.length_take_le 60 _
    have h3 : (utf16Units "...").length = 3 := rfl
    omega

/-- C5 witness: the spec's own example — free-text types A, B, A — groups
to `[(A, 2), (B, 1)]`, where ties (none here, and first-seen order for
these non-index keys) and the always-appended ellipsis are concrete. -/
theorem C5_witness :
    (((rankedGroups [⟨"E1", "A", "m1", none, none⟩, ⟨"E2", "B", "m2", none, none⟩,
        ⟨"E3", "A", "m3", none, none⟩]).take 5).map displayGroup).length ≤ 5 ∧
    (rankedGroups [⟨"E1", "A", "m1", none, none⟩, ⟨"E2", "B", "m2", none, none⟩,
        ⟨"E3", "A", "m3", none, none⟩]).filter (fun g => g.count == 1)
      = (groupByType [⟨"E1", "A", "m1", none, none⟩, ⟨"E2", "B", "m2", none, none⟩,
        ⟨"E3", "A", "m3", none, none⟩]).filter (fun g => g.count == 1) ∧
    updateTopErrors (some [⟨"E1", "A", "m1", none, none⟩,
        ⟨"E2", "B", "m2", none, none⟩, ⟨"E3", "A", "m3", none, none⟩])
      = .groups [⟨"A", 2, utf16Units "m1..."⟩, ⟨"B", 1, utf16Units "m2..."⟩] :=
  ⟨(C5_amended [⟨"E1", "A", "m1", none, none⟩, ⟨"E2", "B", "m2", none, none⟩,
      ⟨"E3", "A", "m3", none, none⟩] (by decide)).2.1,
   (C5_amended [⟨"E1", "A", "m1", none, none⟩, ⟨"E2", "B", "m2", none, none⟩,
      ⟨"E3", "A", "m3", none, none⟩] (by decide)).2.2.2.2.1 (by decide) 1,
   by decide⟩

/-- Drill-down modal content: a plain count when the detail sequence is
absent, otherwise the rendered entries. -/
inductive Modal where
  | countOnly (count : ℤ)
  | shown (entries : List ErrorEntry)
deriving DecidableEq, Repr

/-- `showErrorDetails(count)` of the first revision: absent details give a
count-only modal; otherwise ALL entries are rendered (the `.slice(0, 10)`
of the earlier revision was deliberately removed). -/
def showErrorDetails (error_details : Option (List ErrorEntry)) (count : ℤ) :
    Modal :=
  match error_details with
  | none => .countOnly count
  | some errors => .shown errors

/-- `showWarningDetails(count)`: absent details give a count-only modal;
otherwise `warning_details.slice(0, 10)` is rendered. -/
def showWarningDetails (warning_details : Option (List ErrorEntry)) (count : ℤ) :
    Modal :=
  match warning_details with
  | none => .countOnly count
  | some warnings => .shown (warnings.take 10)

/-- C10: the warning drill-down renders exactly the first 10 entries
(never more, and never an entry past the tenth) regardless of the reported
count, while the error drill-down renders every entry. -/
theorem C10 (wd ed : List ErrorEntry) (count count2 : ℤ) :
    showWarningDetails (some wd) count = .shown (wd.take 10) ∧
    (wd.take 10).length ≤ 10 ∧
    (10 < wd.length → (wd.take 10).length = 10) ∧
    (∀ other : ℤ, showWarningDetails (some wd) other
        = showWarningDetails (some wd) count) ∧
    showErrorDetails (some ed) count2 = .shown ed := by
  refine ⟨rfl, List.length_take_le 10 wd, ?_, fun _ => rfl, rfl⟩
  intro h
  rw [List.length_take]
  omega

/-- C10 witness: eleven warnings render exactly ten entries. -/
theorem C10_witness :
    ((List.replicate 11 (⟨"W1", "w", "m", none, none⟩ : ErrorEntry)).take 10).length
      = 10 :=
  (C10 (List.replicate 11 ⟨"W1", "w", "m", none, none⟩) [] 0 0).2.2.1 (by decide)

/-- The full derived output of one `updateDashboard` run: status dots,
severity counts, executive-summary totals, health card, trend figure,
top-errors card, recommendation feed, and the overall status label. -/
structure Derived where
  dots : StatusDots
  counts : Nat × Nat × Nat × Nat
  total : Nat
  errs : Nat
  health : HealthView
  trend : String × String
  top : TopErrors
  recs : RecFeed
  overall : String
deriving DecidableEq, Repr

/-- The derivation as the code performs it: everything reads the snapshot
argument except `updateLogHealth`, which reads the health fields through
the `window.dashboardData` global `w`. -/
def deriveFrom (w : Option Snapshot) (d : Snapshot) : Derived where
  dots := updateStatusIndicators d.cost_health d.log_levels
  counts := (criticalCount d.log_levels, errorCountOf d.log_levels,
    warningCountOf d.log_levels, infoCountOf d.log_levels)
  total := totalLogs d.log_levels
  errs := errorsMetric d.log_levels
  health := updateLogHealth d.log_health_status (w.bind Snapshot.health_score)
    (w.bind Snapshot.health_reason)
  trend := (trendClass (costChangeOf d.cost_trend),
    trendDisplay (costChangeOf d.cost_trend))
  top := updateTopErrors d.error_details
  recs := updateRecommendations d.recommendations
  overall := updateStatus d.sentiment d.error_count

/-- One `updateDashboard(data)` call: first `window.dashboardData = data`,
then all derivations run against the fresh global and the argument. -/
def step (_prior : Option Snapshot) (d : Snapshot) : Option Snapshot × Derived :=
  (some d, deriveFrom (some d) d)

/-- C8: processing a snapshot yields output independent of whatever
snapshot the global previously held, so feeding the same snapshot twice
(or from any two states) produces identical derived output, and the held
state after a run is exactly the processed snapshot. -/
theorem C8 (w w2 : Option Snapshot) (d : Snapshot) :
    (step w d).2 = (step w2 d).2 ∧
    (step (step w d).1 d).2 = (step w d).2 ∧
    (step (step w d).1 d).1 = (step w d).1 :=
  ⟨rfl, rfl, rfl⟩

/-- One full run, with the global already holding the processed snapshot:
the output every component pair observes. -/
def coreOutputs (s : Snapshot) : Derived := deriveFrom (some s) s

/-- The snapshot with every documented default filled in explicitly. -/
def Snapshot.defaulted (s : Snapshot) : Snapshot where
  timestamp := s.timestamp
  cost_health := some (s.cost_health.getD "ok")
  log_levels := some ⟨some (criticalCount s.log_levels),
    some (errorCountOf s.log_levels), some (warningCountOf s.log_levels),
    some (infoCountOf s.log_levels)⟩
  error_details := some (s.error_details.getD [])
  warning_details := s.warning_details
  info_details := s.info_details
  cost_trend := some ⟨some (totalCostOf s.cost_trend),
    some (costChangeOf s.cost_trend)⟩
  log_health_status := some (jsOr s.log_health_status "Stable")
  health_score := some (s.health_score.getD 50)
  health_reason := some (s.health_reason.getD "No data available")
  recommendations := some (s.recommendations.getD [])
  sentiment := some (s.sentiment.getD "Neutral")
  error_count := some (s.error_count.getD 0)

/-- The fully absent snapshot (every optional field missing). -/
def emptySnapshot : Snapshot :=
  ⟨none, none, none, none, none, none, none, none, none, none, none, none, none⟩

/-- Applying the string-falsy default twice is the same as applying it
once. -/
theorem jsOr_jsOr (s : Option String) (d : String) (hd : ¬ d = "") :
    jsOr (some (jsOr s d)) d = jsOr s d := by
  cases s with
  | none => simp [jsOr, hd]
  | some v =>
    by_cases hv : v = ""
    · simp [jsOr, hv, hd]
    · simp [jsOr, hv]

theorem defaulted_dots (s : Snapshot) :
    updateStatusIndicators (Snapshot.defaulted s).cost_health
        (Snapshot.defaulted s).log_levels
      = updateStatusIndicators s.cost_health s.log_levels := by
  cases hch : s.cost_health <;>
    simp [updateStatusIndicators, Snapshot.defaulted, hch, criticalCount,
      warningCountOf, Option.bind]

theorem defaulted_health (s : Snapshot) :
    updateLogHealth (Snapshot.defaulted s).log_health_status
        (Snapshot.defaulted s).health_score (Snapshot.defaulted s).health_reason
      = updateLogHealth s.log_health_status s.health_score s.health_reason := by
  simp only [updateLogHealth, Snapshot.defaulted, Option.getD_some]
  rw [jsOr_jsOr _ _ (by decide)]

theorem defaulted_top (s : Snapshot) :
    updateTopErrors (Snapshot.defaulted s).error_details
      = updateTopErrors s.error_details := by
  cases hed : s.error_details with
  | none => simp [updateTopErrors, Snapshot.defaulted, hed]
  | some l => simp [updateTopErrors, Snapshot.defaulted, hed]

theorem defaulted_recs (s : Snapshot) :
    updateRecommendations (Snapshot.defaulted s).recommendations
      = updateRecommendations s.recommendations := by
  cases hr : s.recommendations with
  | none => simp [updateRecommendations, Snapshot.defaulted, hr]
  | some l => simp [updateRecommendations, Snapshot.defaulted, hr]

theorem defaulted_overall (s : Snapshot) :
    updateStatus (Snapshot.defaulted s).sentiment (Snapshot.defaulted s).error_count
      = updateStatus s.sentiment s.error_count := by
  cases hst : s.sentiment <;> cases hec : s.error_count <;>
    simp [updateStatus, Snapshot.defaulted, hst, hec, jsNumGt]

/-- C9: the derivation components are total over the documented shape (they
are total functions here by construction, mirroring the guarded accesses of
the code), and absent optional fields behave exactly as their documented
defaults: filling every default in explicitly changes no derived output,
and the fully absent snapshot yields the documented default output. -/
theorem C9 (s : Snapshot) :
    coreOutputs (Snapshot.defaulted s) = coreOutputs s ∧
    (coreOutputs emptySnapshot).counts = (0, 0, 0, 0) ∧
    (coreOutputs emptySnapshot).total = 0 ∧
    (coreOutputs emptySnapshot).dots = ⟨"green", "green"⟩ ∧
    (coreOutputs emptySnapshot).health
        = ⟨"Stable", "😐", "var(--warning-color)", 50, "No data available"⟩ ∧
    (coreOutputs emptySnapshot).trend = ("down", "0.0%") ∧
    (coreOutputs emptySnapshot).top = .noErrors ∧
    (coreOutputs emptySnapshot).recs = .optimal ∧
    (coreOutputs emptySnapshot).overall = "Healthy" := by
  refine ⟨?_, rfl, rfl, by decide, by decide, ?_, rfl, rfl, by decide⟩
  · simp only [coreOutputs, deriveFrom, Derived.mk.injEq]
    refine ⟨defaulted_dots s, ?_, ?_, ?_, ?_, ?_, defaulted_top s,
      defaulted_recs s, defaulted_overall s⟩
    · rfl
    · rw [totalLogs_eq, totalLogs_eq]
      rfl
    · rfl
    · exact defaulted_health s
    · rfl
  · show (trendClass (costChangeOf none), trendDisplay (costChangeOf none))
        = ("down", "0.0%")
    rw [show costChangeOf none = 0 from rfl, trendDisplay_zero.1,
      trendDisplay_zero.2]

end CloudInsight
